import Mathlib

/-!
Verification of the `PlaylistSplitter` repository
(`src/PlaylistSplitter/PlaylistSplitter.py` and
`src/PlaylistSplitter/playlist_splitter_defs.py`).

The Python program partitions the tracks of an origin playlist into
buckets (one per configured pool plus an overflow bucket) and writes each
bucket to a destination playlist through the Spotify web API.  Below we
give a shallow embedding of every piece of logic the claims touch:

* the artist-mode and label-mode classifiers (`__split_by_artist`,
  `__split_by_label`, `__label_track_slimmer`),
* the chunked batch write (`chunk_track_list`, `write_playlist`),
* the playlist clearing trick (`reset_playlist`),
* the paging helper (`__get_all_playlist_items`),
* the configuration validation and the split orchestration (`split`,
  `__do_split`), including the `getattr`-based dispatch on the split
  type and the `zip(..., strict=True)` pairing of buckets with
  destination playlists.

Remote Spotify calls are modelled as an explicit trace of `CatalogOp`
values, and playlist contents as a map from playlist id to its item
list, so that both call counts/order and resulting playlist states can
be stated and proved.
-/

namespace PlaylistSplitter

/-- A track as consumed by the classifiers: the fields of the Spotify
track object that `PlaylistSplitter.py` reads (`track['id']`,
`track['artists']` as a set of artist ids, `track['album']['id']`). -/
structure Track where
  id : String
  artists : List String
  albumId : String
deriving DecidableEq, Repr

/-- `track['artists'].intersection(set(pool))` is truthy iff the track's
artist-id set and the pool's artist-id set share an element
(line 147 of `PlaylistSplitter.py`). -/
def artistMatches (t : Track) (pool : List String) : Bool :=
  t.artists.any (fun a => pool.contains a)

/-- The bucket index chosen by the inner `for idx, pool in
enumerate(...)` / `else` loop of `__split_by_artist` (lines 146-151):
index of the first pool with non-empty artist intersection, and
`pools.length` (the last bucket, `track_pools[-1]`) when none matches. -/
def assignIndex (pools : List (List String)) (t : Track) : Nat :=
  match pools with
  | [] => 0
  | p :: rest => if artistMatches t p then 0 else assignIndex rest t + 1

/-- `track_pools[idx].append(x)`: append `x` to the `i`-th bucket. -/
def appendAt : List (List String) → Nat → String → List (List String)
  | [], _, _ => []
  | b :: rest, 0, x => (b ++ [x]) :: rest
  | b :: rest, n + 1, x => b :: appendAt rest n x

/-- `__split_by_artist` (lines 136-152): start from `len(pools)+1` empty
buckets and fold over the tracks, appending each track id to the bucket
of its assigned index. -/
def splitByArtist (pools : List (List String)) (tracks : List Track) :
    List (List String) :=
  tracks.foldl (fun acc t => appendAt acc (assignIndex pools t) t.id)
    (List.replicate (pools.length + 1) [])

/-- The slimmed record produced per track by `__label_track_slimmer`
(lines 172-179): the track id together with the label string obtained by
looking the track's album up in the catalog. -/
structure SlimLabelTrack where
  id : String
  label : String
deriving DecidableEq, Repr

/-- `__label_track_slimmer` (lines 172-179), with the remote
`client.album(...)['label']` lookup abstracted as the function
`album : albumId → label`. -/
def labelTrackSlimmer (album : String → String) (tracks : List Track) :
    List SlimLabelTrack :=
  tracks.map (fun t => { id := t.id, label := album t.albumId })

/-- `track['label'] in pool` (line 165): exact, case-sensitive string
membership of the resolved label in the pool. -/
def labelMatches (t : SlimLabelTrack) (pool : List String) : Bool :=
  pool.contains t.label

/-- Bucket index chosen by the inner loop of `__split_by_label`
(lines 164-169): first pool containing the label, else `pools.length`. -/
def labelAssignIndex (pools : List (List String)) (t : SlimLabelTrack) : Nat :=
  match pools with
  | [] => 0
  | p :: rest => if labelMatches t p then 0 else labelAssignIndex rest t + 1

/-- `__split_by_label` (lines 154-170): same bucket fold as artist mode,
over the slimmed (id, label) records. -/
def splitByLabel (album : String → String) (pools : List (List String))
    (tracks : List Track) : List (List String) :=
  (labelTrackSlimmer album tracks).foldl
    (fun acc t => appendAt acc (labelAssignIndex pools t) t.id)
    (List.replicate (pools.length + 1) [])

end PlaylistSplitter

namespace PlaylistSplitter

/-! ### Basic lemmas about `appendAt` and the bucket fold -/

theorem length_appendAt (l : List (List String)) (i : Nat) (x : String) :
    (appendAt l i x).length = l.length := by
  induction l generalizing i with
  | nil => rfl
  | cons b rest ih =>
    cases i with
    | zero => rfl
    | succ n => simp [appendAt, ih]

theorem getD_appendAt (l : List (List String)) (i : Nat) (x : String)
    (b : Nat) (hb : b < l.length) :
    (appendAt l i x).getD b [] =
      if b = i then l.getD b [] ++ [x] else l.getD b [] := by
  induction l generalizing i b with
  | nil => simp at hb
  | cons c rest ih =>
    cases i with
    | zero =>
      cases b with
      | zero => simp [appendAt]
      | succ m => simp [appendAt]
    | succ n =>
      cases b with
      | zero => simp [appendAt]
      | succ m =>
        have hm : m < rest.length := by simpa using hb
        simp only [appendAt, List.getD_cons_succ, Nat.add_right_cancel_iff]
        exact ih n m hm

/-- Generic characterisation of the bucket fold used by both
classifiers: folding `appendAt` along an assignment function fills each
bucket with exactly the identifiers of the elements assigned to it, in
traversal order. -/
theorem getD_bucketFold {α : Type} (f : α → Nat) (g : α → String)
    (xs : List α) (acc : List (List String)) (b : Nat) (hb : b < acc.length) :
    (xs.foldl (fun a x => appendAt a (f x) (g x)) acc).getD b [] =
      acc.getD b [] ++ (xs.filter (fun x => f x == b)).map g := by
  induction xs generalizing acc with
  | nil => simp
  | cons x xs ih =>
    have hb' : b < (appendAt acc (f x) (g x)).length := by
      rw [length_appendAt]; exact hb
    rw [List.foldl_cons, ih _ hb', getD_appendAt acc (f x) (g x) b hb]
    by_cases h : f x = b
    · simp [h, List.filter_cons, List.append_assoc]
    · have h' : ¬ (f x == b) = true := by simpa using h
      have hbf : ¬ b = f x := fun hbf => h hbf.symm
      simp [List.filter_cons, h', hbf]

theorem length_bucketFold {α : Type} (f : α → Nat) (g : α → String)
    (xs : List α) (acc : List (List String)) :
    (xs.foldl (fun a x => appendAt a (f x) (g x)) acc).length = acc.length := by
  induction xs generalizing acc with
  | nil => rfl
  | cons x xs ih => rw [List.foldl_cons, ih, length_appendAt]

theorem length_splitByArtist (pools : List (List String)) (tracks : List Track) :
    (splitByArtist pools tracks).length = pools.length + 1 := by
  unfold splitByArtist
  rw [length_bucketFold, List.length_replicate]

theorem getD_splitByArtist (pools : List (List String)) (tracks : List Track)
    (b : Nat) (hb : b < pools.length + 1) :
    (splitByArtist pools tracks).getD b [] =
      (tracks.filter (fun t => assignIndex pools t == b)).map Track.id := by
  unfold splitByArtist
  have hb' : b < (List.replicate (pools.length + 1) ([] : List String)).length := by
    simpa using hb
  rw [getD_bucketFold _ _ _ _ b hb']
  simp

theorem assignIndex_le (pools : List (List String)) (t : Track) :
    assignIndex pools t ≤ pools.length := by
  induction pools with
  | nil => simp [assignIndex]
  | cons p rest ih =>
    by_cases h : artistMatches t p
    · simp [assignIndex, h]
    · simp [assignIndex, h, Nat.succ_le_succ ih]

end PlaylistSplitter

namespace PlaylistSplitter

theorem splitByArtist_eq_map (pools : List (List String)) (tracks : List Track) :
    splitByArtist pools tracks =
      (List.range (pools.length + 1)).map
        (fun b => (tracks.filter (fun t => assignIndex pools t == b)).map Track.id) := by
  apply List.ext_getElem
  · rw [length_splitByArtist]; simp
  · intro i h1 h2
    have hi : i < pools.length + 1 := by
      rw [length_splitByArtist] at h1; exact h1
    rw [← List.getD_eq_getElem _ [] h1, getD_splitByArtist pools tracks i hi]
    simp

theorem assignIndex_congr (pools : List (List String)) (t1 t2 : Track)
    (h : t1.artists = t2.artists) :
    assignIndex pools t1 = assignIndex pools t2 := by
  induction pools with
  | nil => rfl
  | cons p rest ih =>
    have hm : artistMatches t1 p = artistMatches t2 p := by
      unfold artistMatches; rw [h]
    simp only [assignIndex, hm, ih]

theorem assignIndex_earlier_not_match (pools : List (List String)) (t : Track) :
    ∀ j, j < assignIndex pools t → artistMatches t (pools.getD j []) = false := by
  induction pools with
  | nil => intro j hj; simp [assignIndex] at hj
  | cons p rest ih =>
    intro j hj
    by_cases h : artistMatches t p
    · simp [assignIndex, h] at hj
    · rw [Bool.not_eq_true] at h
      cases j with
      | zero => simpa using h
      | succ m =>
        have hm : m < assignIndex rest t := by
          simp only [assignIndex, h, Bool.false_eq_true, if_false] at hj
          omega
        simpa using ih m hm

theorem assignIndex_match (pools : List (List String)) (t : Track)
    (h : assignIndex pools t < pools.length) :
    artistMatches t (pools.getD (assignIndex pools t) []) = true := by
  induction pools with
  | nil => simp at h
  | cons p rest ih =>
    by_cases hp : artistMatches t p
    · simp [assignIndex, hp]
    · simp only [assignIndex, hp, if_false] at h ⊢
      have : assignIndex rest t < rest.length := by simpa using h
      simpa using ih this

theorem assignIndex_eq_length_iff (pools : List (List String)) (t : Track) :
    assignIndex pools t = pools.length ↔
      ∀ j, j < pools.length → artistMatches t (pools.getD j []) = false := by
  constructor
  · intro h j hj
    exact assignIndex_earlier_not_match pools t j (h ▸ hj)
  · intro hall
    rcases Nat.lt_or_ge (assignIndex pools t) pools.length with hlt | hge
    · have := assignIndex_match pools t hlt
      rw [hall _ hlt] at this
      exact absurd this (by simp)
    · exact Nat.le_antisymm (assignIndex_le pools t) hge

/-- **C1.** Artist-mode classification is a stable partition: the output has
`len(pools)+1` buckets, bucket `b` is exactly the sequence of ids of the
input tracks assigned to `b`, in input order, and (provided equal track ids
carry equal artist sets, as Spotify track objects do) every input track id
appears in exactly one bucket. -/
theorem artist_split_stable_partition (pools : List (List String))
    (tracks : List Track)
    (hc : ∀ t1 ∈ tracks, ∀ t2 ∈ tracks, t1.id = t2.id → t1.artists = t2.artists) :
    (splitByArtist pools tracks).length = pools.length + 1 ∧
    (∀ b, b < pools.length + 1 →
      (splitByArtist pools tracks).getD b [] =
        (tracks.filter (fun t => assignIndex pools t == b)).map Track.id) ∧
    (∀ t ∈ tracks,
      (splitByArtist pools tracks).countP (fun bucket => bucket.contains t.id) = 1) := by
  refine ⟨length_splitByArtist pools tracks,
    fun b hb => getD_splitByArtist pools tracks b hb, ?_⟩
  intro t ht
  rw [splitByArtist_eq_map, List.countP_map]
  simp only [Function.comp_def]
  have hk : assignIndex pools t < pools.length + 1 :=
    Nat.lt_succ_of_le (assignIndex_le pools t)
  have hpred : ∀ b ∈ List.range (pools.length + 1),
      ((((tracks.filter (fun t' => assignIndex pools t' == b)).map
        Track.id).contains t.id) = true ↔ (b == assignIndex pools t) = true) := by
    intro b _
    rw [List.elem_iff, beq_iff_eq]
    constructor
    · intro hcont
      rcases List.mem_map.mp hcont with ⟨t', ht', hid⟩
      rcases List.mem_filter.mp ht' with ⟨ht'mem, hbeq⟩
      have hb' : assignIndex pools t' = b := by simpa using hbeq
      have harts : t'.artists = t.artists := hc t' ht'mem t ht hid
      rw [← hb', assignIndex_congr pools t' t harts]
    · intro hbk
      subst hbk
      exact List.mem_map.mpr ⟨t, List.mem_filter.mpr ⟨ht, by simp⟩, rfl⟩
  rw [List.countP_congr hpred]
  have hcnt : List.countP (fun b => b == assignIndex pools t)
      (List.range (pools.length + 1)) =
      List.count (assignIndex pools t) (List.range (pools.length + 1)) := rfl
  rw [hcnt]
  exact List.count_eq_one_of_mem (List.nodup_range _) (List.mem_range.mpr hk)

/-- Witness for C1 at a concrete input: pools `[[A],[C]]`, three tracks with
artist sets `{A,B}`, `{C}`, `{D}`; the partition is
`[[t1],[t2],[t3]]`. -/
theorem artist_split_stable_partition_witness :
    (splitByArtist [["A"], ["C"]]
        [⟨"t1", ["A", "B"], "al1"⟩, ⟨"t2", ["C"], "al2"⟩, ⟨"t3", ["D"], "al3"⟩]).countP
      (fun bucket => bucket.contains "t1") = 1 :=
  (artist_split_stable_partition [["A"], ["C"]]
      [⟨"t1", ["A", "B"], "al1"⟩, ⟨"t2", ["C"], "al2"⟩, ⟨"t3", ["D"], "al3"⟩]
      (by decide)).2.2 ⟨"t1", ["A", "B"], "al1"⟩ (by decide)

end PlaylistSplitter

namespace PlaylistSplitter

/-- **C2.** First-match semantics of artist-mode classification:
`assignIndex` never exceeds `len(pools)`; every pool before the assigned
one fails to intersect the track's artists; when a pool is assigned its
artist set intersects the track's; the overflow index `len(pools)` is
assigned exactly when no pool intersects; `artistMatches` is non-empty
intersection; and the track's id lands in the bucket of its assigned
index. -/
theorem artist_first_match (pools : List (List String)) (t : Track) :
    assignIndex pools t ≤ pools.length ∧
    (∀ j, j < assignIndex pools t → artistMatches t (pools.getD j []) = false) ∧
    (assignIndex pools t < pools.length →
      artistMatches t (pools.getD (assignIndex pools t) []) = true) ∧
    (assignIndex pools t = pools.length ↔
      ∀ j, j < pools.length → artistMatches t (pools.getD j []) = false) ∧
    (∀ p, artistMatches t p = true ↔ ∃ a, a ∈ t.artists ∧ a ∈ p) ∧
    (∀ tracks, t ∈ tracks →
      t.id ∈ (splitByArtist pools tracks).getD (assignIndex pools t) []) := by
  refine ⟨assignIndex_le pools t, assignIndex_earlier_not_match pools t,
    assignIndex_match pools t, assignIndex_eq_length_iff pools t, ?_, ?_⟩
  · intro p
    simp [artistMatches, List.any_eq_true]
  · intro tracks ht
    have hk : assignIndex pools t < pools.length + 1 :=
      Nat.lt_succ_of_le (assignIndex_le pools t)
    rw [getD_splitByArtist pools tracks _ hk]
    exact List.mem_map.mpr ⟨t, List.mem_filter.mpr ⟨ht, by simp⟩, rfl⟩

/-- Witness for C2: with pools `[[A],[B]]` and a track whose artists are
`{A, B}`, the track is assigned to bucket 0 (first match), its assigned
pool intersects its artists, and its id lands in bucket 0. -/
theorem artist_first_match_witness :
    assignIndex [["A"], ["B"]] ⟨"t", ["A", "B"], "al"⟩ < 2 ∧
    artistMatches ⟨"t", ["A", "B"], "al"⟩
      ([["A"], ["B"]].getD (assignIndex [["A"], ["B"]] ⟨"t", ["A", "B"], "al"⟩) [])
      = true ∧
    "t" ∈ (splitByArtist [["A"], ["B"]]
      [⟨"t", ["A", "B"], "al"⟩]).getD
        (assignIndex [["A"], ["B"]] ⟨"t", ["A", "B"], "al"⟩) [] :=
  ⟨by decide,
   (artist_first_match [["A"], ["B"]] ⟨"t", ["A", "B"], "al"⟩).2.2.1 (by decide),
   (artist_first_match [["A"], ["B"]] ⟨"t", ["A", "B"], "al"⟩).2.2.2.2.2
     [⟨"t", ["A", "B"], "al"⟩] (by decide)⟩

/-! ### Label-mode lemmas -/

theorem labelAssignIndex_le (pools : List (List String)) (t : SlimLabelTrack) :
    labelAssignIndex pools t ≤ pools.length := by
  induction pools with
  | nil => simp [labelAssignIndex]
  | cons p rest ih =>
    by_cases h : labelMatches t p
    · simp [labelAssignIndex, h]
    · simp [labelAssignIndex, h, Nat.succ_le_succ ih]

theorem labelAssignIndex_earlier_not_match (pools : List (List String))
    (t : SlimLabelTrack) :
    ∀ j, j < labelAssignIndex pools t → labelMatches t (pools.getD j []) = false := by
  induction pools with
  | nil => intro j hj; simp [labelAssignIndex] at hj
  | cons p rest ih =>
    intro j hj
    by_cases h : labelMatches t p
    · simp [labelAssignIndex, h] at hj
    · rw [Bool.not_eq_true] at h
      cases j with
      | zero => simpa using h
      | succ m =>
        have hm : m < labelAssignIndex rest t := by
          simp only [labelAssignIndex, h, Bool.false_eq_true, if_false] at hj
          omega
        simpa using ih m hm

theorem labelAssignIndex_match (pools : List (List String)) (t : SlimLabelTrack)
    (h : labelAssignIndex pools t < pools.length) :
    labelMatches t (pools.getD (labelAssignIndex pools t) []) = true := by
  induction pools with
  | nil => simp at h
  | cons p rest ih =>
    by_cases hp : labelMatches t p
    · simp [labelAssignIndex, hp]
    · rw [Bool.not_eq_true] at hp
      simp only [labelAssignIndex, hp, Bool.false_eq_true, if_false] at h ⊢
      have : labelAssignIndex rest t < rest.length := by simpa using h
      simpa using ih this

theorem labelAssignIndex_eq_length_iff (pools : List (List String))
    (t : SlimLabelTrack) :
    labelAssignIndex pools t = pools.length ↔
      ∀ j, j < pools.length → labelMatches t (pools.getD j []) = false := by
  constructor
  · intro h j hj
    exact labelAssignIndex_earlier_not_match pools t j (h ▸ hj)
  · intro hall
    rcases Nat.lt_or_ge (labelAssignIndex pools t) pools.length with hlt | hge
    · have := labelAssignIndex_match pools t hlt
      rw [hall _ hlt] at this
      exact absurd this (by simp)
    · exact Nat.le_antisymm (labelAssignIndex_le pools t) hge

theorem labelAssignIndex_congr (pools : List (List String))
    (s1 s2 : SlimLabelTrack) (h : s1.label = s2.label) :
    labelAssignIndex pools s1 = labelAssignIndex pools s2 := by
  induction pools with
  | nil => rfl
  | cons p rest ih =>
    have hm : labelMatches s1 p = labelMatches s2 p := by
      unfold labelMatches; rw [h]
    simp only [labelAssignIndex, hm, ih]

theorem length_splitByLabel (album : String → String)
    (pools : List (List String)) (tracks : List Track) :
    (splitByLabel album pools tracks).length = pools.length + 1 := by
  unfold splitByLabel
  rw [length_bucketFold, List.length_replicate]

theorem getD_splitByLabel (album : String → String)
    (pools : List (List String)) (tracks : List Track)
    (b : Nat) (hb : b < pools.length + 1) :
    (splitByLabel album pools tracks).getD b [] =
      ((labelTrackSlimmer album tracks).filter
        (fun s => labelAssignIndex pools s == b)).map SlimLabelTrack.id := by
  unfold splitByLabel
  have hb' : b < (List.replicate (pools.length + 1) ([] : List String)).length := by
    simpa using hb
  rw [getD_bucketFold _ _ _ _ b hb']
  simp

/-- **C7.** Label-mode classification: labels are resolved through each
track's album; a track goes to the first pool containing its resolved
label (exact, case-sensitive string membership), else to the overflow
bucket at index `len(pools)`; the output is the same stable partition as
artist mode (bucket `b` holds the ids of the slimmed records assigned to
`b`, in input order), so two tracks with the same resolved label get the
same bucket index. -/
theorem label_split_first_match (album : String → String)
    (pools : List (List String)) (tracks : List Track) :
    (splitByLabel album pools tracks).length = pools.length + 1 ∧
    (∀ b, b < pools.length + 1 →
      (splitByLabel album pools tracks).getD b [] =
        ((labelTrackSlimmer album tracks).filter
          (fun s => labelAssignIndex pools s == b)).map SlimLabelTrack.id) ∧
    labelTrackSlimmer album tracks =
      tracks.map (fun t => ⟨t.id, album t.albumId⟩) ∧
    (∀ s : SlimLabelTrack, ∀ j, j < labelAssignIndex pools s →
      labelMatches s (pools.getD j []) = false) ∧
    (∀ s : SlimLabelTrack, labelAssignIndex pools s < pools.length →
      labelMatches s (pools.getD (labelAssignIndex pools s) []) = true) ∧
    (∀ s : SlimLabelTrack, labelAssignIndex pools s = pools.length ↔
      ∀ j, j < pools.length → labelMatches s (pools.getD j []) = false) ∧
    (∀ s p, labelMatches s p = true ↔ s.label ∈ p) ∧
    (∀ t1 t2 : Track, album t1.albumId = album t2.albumId →
      labelAssignIndex pools ⟨t1.id, album t1.albumId⟩ =
        labelAssignIndex pools ⟨t2.id, album t2.albumId⟩) := by
  refine ⟨length_splitByLabel album pools tracks,
    fun b hb => getD_splitByLabel album pools tracks b hb, rfl,
    fun s => labelAssignIndex_earlier_not_match pools s,
    fun s => labelAssignIndex_match pools s,
    fun s => labelAssignIndex_eq_length_iff pools s, ?_, ?_⟩
  · intro s p
    simp [labelMatches]
  · intro t1 t2 h
    exact labelAssignIndex_congr pools _ _ h

/-- Witness for C7: album map resolving every album to label `LX`,
pool `[[LX]]`; both tracks land in bucket 0 in input order. -/
theorem label_split_first_match_witness :
    0 < 1 + 1 ∧
    (splitByLabel (fun _ => "LX") [["LX"]]
        [⟨"t1", [], "a1"⟩, ⟨"t2", [], "a2"⟩]).getD 0 [] =
      ((labelTrackSlimmer (fun _ => "LX")
          [⟨"t1", [], "a1"⟩, ⟨"t2", [], "a2"⟩]).filter
        (fun s => labelAssignIndex [["LX"]] s == 0)).map SlimLabelTrack.id :=
  ⟨by decide,
   (label_split_first_match (fun _ => "LX") [["LX"]]
      [⟨"t1", [], "a1"⟩, ⟨"t2", [], "a2"⟩]).2.1 0 (by decide)⟩

end PlaylistSplitter

namespace PlaylistSplitter

/-! ### Catalog operations and playlist state

Remote spotipy calls are modelled as a trace of `CatalogOp` values;
playlist contents as a map from playlist id to its ordered item list. -/

/-- One remote Spotify call, in the order the program issues them. -/
inductive CatalogOp where
  | fetchPlaylist (playlist : String)
  | fetchNextPage
  | albumLookup (albumId : String)
  | createPlaylist
  | replaceItems (playlist : String) (items : List String)
  | removeAllOccurrences (playlist : String) (items : List String)
  | addItems (playlist : String) (items : List String)
deriving DecidableEq, Repr

/-- The placeholder track URI hard-coded in `reset_playlist`
(lines 219-222). -/
def placeholderTrack : String := "spotify:track:4RWkW7tGWseUu1T9LzpEBP"

/-- `chunk_track_list` (lines 198-204): split the id list into
consecutive chunks of 50 (`for i in range(0, len(tracks), 50): yield
tracks[i : i + 50]`); `range(0, N, 50)` has `⌈N/50⌉` elements and the
`i`-th slice starts at offset `50 * i`. -/
def chunk_track_list (tracks : List String) : List (List String) :=
  (List.range ((tracks.length + 49) / 50)).map
    (fun i => (tracks.drop (50 * i)).take 50)

/-- `reset_playlist` (lines 215-222): the two calls it issues, replace-all
with the placeholder then remove all occurrences of the placeholder. -/
def reset_playlist (playlist_id : String) : List CatalogOp :=
  [.replaceItems playlist_id [placeholderTrack],
   .removeAllOccurrences playlist_id [placeholderTrack]]

/-- `write_playlist` (lines 206-213): reset the destination, then one
`playlist_add_items` call per chunk, in chunk order. -/
def write_playlist (playlist : String) (track_list : List String) :
    List CatalogOp :=
  reset_playlist playlist ++
    (chunk_track_list track_list).map (fun chunk => .addItems playlist chunk)

/-- Contents of every playlist on the remote side. -/
def PlaylistState : Type := String → List String

/-- Semantics of one catalog call on remote playlist contents: replace
sets the list, remove-all-occurrences filters the named items out, add
appends; reads change nothing. -/
def applyOp (s : PlaylistState) : CatalogOp → PlaylistState
  | .replaceItems p items => fun q => if q = p then items else s q
  | .removeAllOccurrences p items =>
      fun q => if q = p then (s p).filter (fun x => !(items.contains x)) else s q
  | .addItems p items => fun q => if q = p then s q ++ items else s q
  | _ => s

/-- Run a whole trace of catalog calls. -/
def applyOps (s : PlaylistState) (ops : List CatalogOp) : PlaylistState :=
  ops.foldl applyOp s

/-! ### Paging (`__get_all_playlist_items`, lines 189-196) -/

/-- One page of the playlist listing: its items and the truthiness of
`results['tracks']['next']`. -/
structure Page where
  items : List Track
  next : Bool
deriving DecidableEq, Repr

/-- The `while results['tracks']['next']` loop (lines 193-195): as long as
the current cursor is truthy, request the next page and extend the
accumulator; returns the collected items and the number of
`client.next` calls. -/
def pageLoop : List Page → Bool → List Track × Nat
  | _, false => ([], 0)
  | [], true => ([], 0)
  | p :: rest, true =>
    let r := pageLoop rest p.next
    (p.items ++ r.1, r.2 + 1)

/-- `__get_all_playlist_items`: fetch the first page, then loop on the
cursor; result is (all items in arrival order, number of next-page
requests). -/
def get_all_playlist_items : List Page → List Track × Nat
  | [] => ([], 0)
  | p :: rest =>
    let r := pageLoop rest p.next
    (p.items ++ r.1, r.2)

/-- An honest catalog: every page signals a next cursor exactly when a
further page exists. -/
def pagesWellFormed : List Page → Prop
  | [] => True
  | p :: rest => (p.next = !rest.isEmpty) ∧ pagesWellFormed rest

/-! ### Split-type dispatch (`playlist_splitter_defs.py` and
`__do_split` line 131) -/

/-- The `SplitTypes` enum of `playlist_splitter_defs.py`. -/
inductive SplitTypes where
  | ARTIST
  | LABEL
deriving DecidableEq, Repr

/-- The `.value` strings of the enum members. -/
def SplitTypes.value : SplitTypes → String
  | .ARTIST => "artist"
  | .LABEL => "label"

/-- A value stored in `self.__split_type`: the annotation on
`by`/`split_by` says `SplitTypes`, but nothing stops a plain string (and
only a string survives the dispatch concatenation). -/
inductive ModeValue where
  | pyStr (s : String)
  | pyEnum (e : SplitTypes)
deriving DecidableEq, Repr

/-- The Python exceptions the modelled paths can raise.  `configError`
and `bucketCountError` are the two `ValueError`s raised by `split`
(lines 112 and 116), `strictZipError` the `ValueError` from
`zip(..., strict=True)` (line 132), `typeError` the `TypeError` from
concatenating a non-string into the method name, and `attributeError`
the `AttributeError` from `getattr` on an unknown name (line 131). -/
inductive PyError where
  | configError
  | bucketCountError
  | strictZipError
  | typeError
  | attributeError
deriving DecidableEq, Repr

/-- `getattr(self, '_PlaylistSplitter__split_by_' + self.__split_type)`
(line 131): concatenation fails with `TypeError` unless the stored mode
is a string; `getattr` then succeeds only if the mangled name is one of
the two splitter methods of the class. -/
def dispatchSplitMethod : ModeValue → Except PyError SplitTypes
  | .pyEnum _ => .error .typeError
  | .pyStr s =>
    let name := "_PlaylistSplitter__split_by_" ++ s
    if name = "_PlaylistSplitter__split_by_artist" then .ok .ARTIST
    else if name = "_PlaylistSplitter__split_by_label" then .ok .LABEL
    else .error .attributeError

end PlaylistSplitter

namespace PlaylistSplitter

/-! ### The orchestrator (`split`, lines 94-120, and `__do_split`,
lines 122-134) -/

/-- The configuration fields accumulated on the `PlaylistSplitter`
instance. -/
structure SplitterState where
  originPlaylist : Option String
  targetPlaylists : Option (List String)
  splitType : Option ModeValue
  splitPools : Option (List (List String))
deriving DecidableEq, Repr

/-- Lines 105-110 of `split`: keyword arguments passed to `split`
override the previously accumulated fields (`by` sets both the mode and
the pools). -/
def mergeParams (st : SplitterState)
    (byArg : Option (ModeValue × List (List String)))
    (playlistArg : Option String) (intoArg : Option (List String)) :
    SplitterState :=
  { originPlaylist := match playlistArg with
      | some p => some p
      | none => st.originPlaylist
    targetPlaylists := match intoArg with
      | some l => some l
      | none => st.targetPlaylists
    splitType := match byArg with
      | some (m, _) => some m
      | none => st.splitType
    splitPools := match byArg with
      | some (_, ps) => some ps
      | none => st.splitPools }

/-- Lines 111-116 of `split`: `ValueError` if any of origin, mode, pools
`is None`; then, if targets are set, `ValueError` unless their length is
`len(pools)` or `len(pools)+1`. -/
def splitValidationError (st : SplitterState) : Option PyError :=
  if st.originPlaylist.isNone ∨ st.splitType.isNone ∨ st.splitPools.isNone then
    some .configError
  else
    match st.targetPlaylists, st.splitPools with
    | some ts, some ps =>
      if ps.length ≠ ts.length ∧ ps.length + 1 ≠ ts.length then
        some .bucketCountError
      else none
    | _, _ => none

/-- Destination playlists as seen by the write loop: either the supplied
list, or (when targets are unset or empty, line 117) the lazy generator
of line 118 producing `len(pools)` freshly created playlists. -/
inductive TargetSource where
  | explicitTargets (ids : List String)
  | generatedTargets (count : Nat)
deriving DecidableEq, Repr

/-- Line 117-118: `if not self.__target_playlists` replaces a `None` or
empty target list by the generator over `range(len(pools))`. -/
def targetsAfterDefault (targets : Option (List String)) (poolCount : Nat) :
    TargetSource :=
  match targets with
  | none => .generatedTargets poolCount
  | some [] => .generatedTargets poolCount
  | some ts => .explicitTargets ts

/-- The `for tracks, playlist in zip(track_pools, self.__target_playlists,
strict=True)` loop (lines 132-134) over an explicit target list: each
round resets then writes one destination; when one side runs out while
the other still has items, `zip(..., strict=True)` raises `ValueError`
after the completed rounds. -/
def pairLoopExplicit : List (List String) → List String →
    List CatalogOp × Option PyError
  | [], [] => ([], none)
  | [], _ :: _ => ([], some .strictZipError)
  | _ :: _, [] => ([], some .strictZipError)
  | bucket :: buckets, target :: targets =>
    let ops := reset_playlist target ++ write_playlist target bucket
    let r := pairLoopExplicit buckets targets
    (ops ++ r.1, r.2)

/-- The same loop when the targets are the lazy generator of line 118:
each round first pulls the generator, creating one playlist (the id
supplied by `supply`), then resets and writes it; when the generator is
exhausted while buckets remain, `zip(..., strict=True)` raises
`ValueError`. -/
def pairLoopGenerated (supply : Nat → String) :
    List (List String) → Nat → Nat → List CatalogOp × Option PyError
  | [], 0, _ => ([], none)
  | [], _ + 1, _ => ([.createPlaylist], some .strictZipError)
  | _ :: _, 0, _ => ([], some .strictZipError)
  | bucket :: buckets, remaining + 1, i =>
    let target := supply i
    let ops := CatalogOp.createPlaylist ::
      (reset_playlist target ++ write_playlist target bucket)
    let r := pairLoopGenerated supply buckets remaining (i + 1)
    (ops ++ r.1, r.2)

/-- The catalog calls made while classifying: none in artist mode, one
album lookup per track in label mode (`__label_track_slimmer`). -/
def classifyOps (mode : SplitTypes) (tracks : List Track) : List CatalogOp :=
  match mode with
  | .ARTIST => []
  | .LABEL => tracks.map (fun t => .albumLookup t.albumId)

/-- The classifier run by the dispatched method. -/
def classifyBuckets (mode : SplitTypes) (album : String → String)
    (pools : List (List String)) (tracks : List Track) : List (List String) :=
  match mode with
  | .ARTIST => splitByArtist pools tracks
  | .LABEL => splitByLabel album pools tracks

/-- `__do_split` (lines 122-134): fetch all origin tracks (paged),
dispatch the classifier from the stored mode string, then run the
strict-zip reset-and-write loop.  Returns the catalog-call trace and the
raised exception, if any. -/
def do_split (origin : String) (mode : ModeValue)
    (pools : List (List String)) (targets : TargetSource)
    (pages : List Page) (album : String → String) (supply : Nat → String) :
    List CatalogOp × Option PyError :=
  let fetched := get_all_playlist_items pages
  let fetchOps := CatalogOp.fetchPlaylist origin ::
    List.replicate fetched.2 CatalogOp.fetchNextPage
  match dispatchSplitMethod mode with
  | .error e => (fetchOps, some e)
  | .ok m =>
    let buckets := classifyBuckets m album pools fetched.1
    let r := match targets with
      | .explicitTargets ts => pairLoopExplicit buckets ts
      | .generatedTargets n => pairLoopGenerated supply buckets n 0
    (fetchOps ++ classifyOps m fetched.1 ++ r.1, r.2)

/-- `split` (lines 94-120): merge keyword arguments into the state,
validate, default the targets, and run `__do_split`.  The remote world
is abstracted by `pages` (the origin playlist's listing), `album`
(album id to label) and `supply` (ids of created playlists). -/
def split (st : SplitterState)
    (byArg : Option (ModeValue × List (List String)))
    (playlistArg : Option String) (intoArg : Option (List String))
    (pages : List Page) (album : String → String) (supply : Nat → String) :
    List CatalogOp × Option PyError :=
  let st' := mergeParams st byArg playlistArg intoArg
  match splitValidationError st' with
  | some e => ([], some e)
  | none =>
    match st'.originPlaylist, st'.splitType, st'.splitPools with
    | some origin, some mode, some pools =>
      do_split origin mode pools
        (targetsAfterDefault st'.targetPlaylists pools.length)
        pages album supply
    | _, _, _ => ([], some .configError)

end PlaylistSplitter

namespace PlaylistSplitter

/-! ### Chunked write lemmas -/

theorem chunk_track_list_nil : chunk_track_list [] = [] := rfl

theorem chunk_track_list_cons (tracks : List String) (h : tracks ≠ []) :
    chunk_track_list tracks =
      tracks.take 50 :: chunk_track_list (tracks.drop 50) := by
  have hpos : 0 < tracks.length := List.length_pos.mpr h
  have hk : (tracks.length + 49) / 50 =
      ((tracks.drop 50).length + 49) / 50 + 1 := by
    rw [List.length_drop]
    omega
  unfold chunk_track_list
  rw [hk, List.range_succ_eq_map, List.map_cons, List.map_map]
  have hhead : List.take 50 (List.drop (50 * 0) tracks) = List.take 50 tracks := by
    simp
  rw [hhead]
  congr 1
  apply List.map_congr_left
  intro i _
  simp only [Function.comp_apply, List.drop_drop, Nat.succ_eq_add_one]
  have h5 : 50 * (i + 1) = 50 + 50 * i := by omega
  rw [h5]

theorem chunk_join (tracks : List String) :
    (chunk_track_list tracks).flatten = tracks := by
  have H : ∀ n (ts : List String), ts.length ≤ n →
      (chunk_track_list ts).flatten = ts := by
    intro n
    induction n with
    | zero =>
      intro ts h
      have : ts = [] := List.eq_nil_of_length_eq_zero (Nat.le_zero.mp h)
      subst this
      rfl
    | succ n ih =>
      intro ts h
      by_cases hne : ts = []
      · subst hne
        rfl
      · rw [chunk_track_list_cons ts hne, List.flatten_cons]
        have hlen : (ts.drop 50).length ≤ n := by
          rw [List.length_drop]
          have : 0 < ts.length := List.length_pos.mpr hne
          omega
        rw [ih _ hlen, List.take_append_drop]
  exact H tracks.length tracks (Nat.le_refl _)

theorem chunk_length (tracks : List String) :
    (chunk_track_list tracks).length = (tracks.length + 49) / 50 := by
  unfold chunk_track_list
  rw [List.length_map, List.length_range]

theorem chunk_sizes (tracks : List String) :
    ∀ c ∈ chunk_track_list tracks, c.length ≤ 50 := by
  intro c hc
  unfold chunk_track_list at hc
  rcases List.mem_map.mp hc with ⟨i, _, hi⟩
  rw [← hi, List.length_take]
  exact Nat.min_le_left _ _

/-- The payloads of the `playlist_add_items` calls in a trace, in call
order. -/
def addPayloads (ops : List CatalogOp) : List (List String) :=
  ops.filterMap (fun op => match op with
    | .addItems _ items => some items
    | _ => none)

/-- **C6.** The chunked write: `write_playlist` issues exactly
`ceil(N/50)` append calls, each of at most 50 ids, whose payloads in
call order are precisely the chunks and concatenate back to the input
list; an empty list issues zero append calls. -/
theorem chunked_write_spec (playlist : String) (track_list : List String) :
    addPayloads (write_playlist playlist track_list) =
      chunk_track_list track_list ∧
    (chunk_track_list track_list).length = (track_list.length + 49) / 50 ∧
    (∀ c ∈ chunk_track_list track_list, c.length ≤ 50) ∧
    (chunk_track_list track_list).flatten = track_list ∧
    (track_list = [] → addPayloads (write_playlist playlist track_list) = []) := by
  have hpay : addPayloads (write_playlist playlist track_list) =
      chunk_track_list track_list := by
    unfold addPayloads write_playlist reset_playlist
    rw [List.filterMap_append]
    simp [List.filterMap_map, Function.comp_def]
  refine ⟨hpay, chunk_length track_list, chunk_sizes track_list,
    chunk_join track_list, ?_⟩
  intro hnil
  rw [hpay, hnil, chunk_track_list_nil]

/-- Witness for C6 at concrete inputs: the first chunk of a 3-id list is
within the batch limit, and the empty list yields zero append calls. -/
theorem chunked_write_spec_witness :
    ["a", "b", "c"] ∈ chunk_track_list ["a", "b", "c"] ∧
    (["a", "b", "c"] : List String).length ≤ 50 ∧
    addPayloads (write_playlist "dest" []) = [] :=
  ⟨by decide,
   (chunked_write_spec "dest" ["a", "b", "c"]).2.2.1 ["a", "b", "c"] (by decide),
   (chunked_write_spec "dest" []).2.2.2.2 rfl⟩

end PlaylistSplitter

namespace PlaylistSplitter

/-! ### Reset/write state semantics (C8) -/

theorem applyOps_append (s : PlaylistState) (ops1 ops2 : List CatalogOp) :
    applyOps s (ops1 ++ ops2) = applyOps (applyOps s ops1) ops2 := by
  unfold applyOps
  rw [List.foldl_append]

theorem applyOps_reset (s : PlaylistState) (playlist_id : String) :
    applyOps s (reset_playlist playlist_id) playlist_id = [] := by
  unfold applyOps reset_playlist
  simp [applyOp, placeholderTrack]

theorem applyOps_addChunks (playlist_id : String) (chunks : List (List String)) :
    ∀ s : PlaylistState,
      applyOps s (chunks.map (fun c => CatalogOp.addItems playlist_id c))
          playlist_id =
        s playlist_id ++ chunks.flatten := by
  induction chunks with
  | nil =>
    intro s
    simp [applyOps]
  | cons c cs ih =>
    intro s
    unfold applyOps
    rw [List.map_cons, List.foldl_cons]
    have := ih (applyOp s (CatalogOp.addItems playlist_id c))
    unfold applyOps at this
    rw [this]
    simp [applyOp, List.append_assoc]

/-- **C8.** `reset_playlist` is exactly the two calls replace-all-with-
placeholder then remove-all-placeholder, and leaves the destination
empty from any prior state; `reset_playlist` followed by
`write_playlist` leaves the destination holding exactly the written
track ids. -/
theorem reset_then_write_spec (playlist_id : String) (s : PlaylistState) :
    reset_playlist playlist_id =
      [.replaceItems playlist_id [placeholderTrack],
       .removeAllOccurrences playlist_id [placeholderTrack]] ∧
    (reset_playlist playlist_id).length = 2 ∧
    applyOps s (reset_playlist playlist_id) playlist_id = [] ∧
    (∀ track_list : List String,
      applyOps s (reset_playlist playlist_id ++
          write_playlist playlist_id track_list) playlist_id = track_list) := by
  refine ⟨rfl, rfl, applyOps_reset s playlist_id, ?_⟩
  intro track_list
  have hsplit : reset_playlist playlist_id ++ write_playlist playlist_id track_list =
      (reset_playlist playlist_id ++ reset_playlist playlist_id) ++
        (chunk_track_list track_list).map
          (fun c => CatalogOp.addItems playlist_id c) := by
    unfold write_playlist
    rw [List.append_assoc]
  rw [hsplit, applyOps_append, applyOps_addChunks, applyOps_append,
    applyOps_reset, chunk_join, List.nil_append]

/-! ### Paging (C9) -/

theorem pageLoop_spec (rest : List Page) (b : Bool)
    (hb : b = !rest.isEmpty) (hwf : pagesWellFormed rest) :
    pageLoop rest b = ((rest.map Page.items).flatten, rest.length) := by
  induction rest generalizing b with
  | nil =>
    subst hb
    rfl
  | cons p r ih =>
    subst hb
    rcases hwf with ⟨hnext, hwfr⟩
    show (p.items ++ (pageLoop r p.next).1, (pageLoop r p.next).2 + 1) = _
    rw [ih p.next hnext hwfr]
    simp

/-- **C9.** The paging helper returns the concatenation of all pages'
items in arrival order, issuing one next-page request per page after the
first (`pages.length - 1` in total, hence zero when the first page is
the last); moreover, whenever a page's cursor is falsy no further page
is requested — in particular a first page whose cursor signals
completion ends the loop with zero iterations, whatever the catalog
could still serve. -/
theorem get_all_playlist_items_spec (pages : List Page)
    (hne : pages ≠ []) (hwf : pagesWellFormed pages) :
    get_all_playlist_items pages =
      ((pages.map Page.items).flatten, pages.length - 1) ∧
    (∀ p rest, pages = p :: rest → p.next = false →
      get_all_playlist_items pages = (p.items, 0)) := by
  constructor
  · match pages, hne with
    | p :: rest, _ =>
      rcases hwf with ⟨hnext, hwfr⟩
      show (p.items ++ (pageLoop rest p.next).1, (pageLoop rest p.next).2) = _
      rw [pageLoop_spec rest p.next hnext hwfr]
      simp
  · intro p rest hpages hfalse
    subst hpages
    show (p.items ++ (pageLoop rest p.next).1, (pageLoop rest p.next).2) = _
    rw [hfalse]
    cases rest <;> simp [pageLoop]

/-- Witness for C9: a two-page listing whose first page signals a next
cursor and whose second does not; all items are collected in order with
exactly one next-page request. -/
theorem get_all_playlist_items_spec_witness :
    get_all_playlist_items
        [⟨[⟨"tA", [], "a"⟩], true⟩, ⟨[⟨"tB", [], "b"⟩], false⟩] =
      ([⟨"tA", [], "a"⟩, ⟨"tB", [], "b"⟩], 1) :=
  (get_all_playlist_items_spec
      [⟨[⟨"tA", [], "a"⟩], true⟩, ⟨[⟨"tB", [], "b"⟩], false⟩]
      (by decide) ⟨rfl, rfl, trivial⟩).1

end PlaylistSplitter

namespace PlaylistSplitter

/-! ### Dispatch and validation theorems (C10, C5) -/

theorem mangled_name_inj (s t : String) :
    ("_PlaylistSplitter__split_by_" ++ s = "_PlaylistSplitter__split_by_" ++ t) ↔
      s = t := by
  constructor
  · intro h
    have hd := congrArg String.data h
    rw [String.data_append, String.data_append] at hd
    exact String.ext (List.append_cancel_left hd)
  · intro h
    rw [h]

theorem dispatchSplitMethod_pyStr (s : String) :
    dispatchSplitMethod (.pyStr s) =
      if s = "artist" then .ok .ARTIST
      else if s = "label" then .ok .LABEL
      else .error .attributeError := by
  have hA : ("_PlaylistSplitter__split_by_" ++ s =
      "_PlaylistSplitter__split_by_artist") ↔ s = "artist" := by
    rw [show ("_PlaylistSplitter__split_by_artist" : String) =
      "_PlaylistSplitter__split_by_" ++ "artist" from by decide]
    exact mangled_name_inj s "artist"
  have hB : ("_PlaylistSplitter__split_by_" ++ s =
      "_PlaylistSplitter__split_by_label") ↔ s = "label" := by
    rw [show ("_PlaylistSplitter__split_by_label" : String) =
      "_PlaylistSplitter__split_by_" ++ "label" from by decide]
    exact mangled_name_inj s "label"
  unfold dispatchSplitMethod
  simp only [hA, hB]

theorem mergeParams_none (st : SplitterState) :
    mergeParams st none none none = st := rfl

/-- **C10.** The `getattr` dispatch reaches a classifier exactly when the
stored mode is the string "artist" or the string "label"; any other
string fails with `AttributeError`, and every `SplitTypes` enum member —
the declared parameter type of `by`/`split_by` — fails with `TypeError`
at the name concatenation even though configuration validation accepted
it (the run stops after the origin fetch). -/
theorem dispatch_requires_mode_string :
    (∀ m : ModeValue, (∃ k, dispatchSplitMethod m = .ok k) ↔
      (m = .pyStr "artist" ∨ m = .pyStr "label")) ∧
    (∀ s : String, s ≠ "artist" → s ≠ "label" →
      dispatchSplitMethod (.pyStr s) = .error .attributeError) ∧
    (∀ e : SplitTypes, ∀ (pages : List Page) (album supply),
      split ⟨some "origin", some ["t1", "t2"], some (.pyEnum e), some [["A"]]⟩
          none none none pages album supply =
        (CatalogOp.fetchPlaylist "origin" ::
          List.replicate (get_all_playlist_items pages).2 CatalogOp.fetchNextPage,
         some .typeError)) := by
  refine ⟨?_, ?_, ?_⟩
  · intro m
    cases m with
    | pyEnum e =>
      constructor
      · rintro ⟨k, hk⟩
        exact absurd hk (by simp [dispatchSplitMethod])
      · rintro (h | h) <;> exact absurd h (by simp)
    | pyStr s =>
      rw [dispatchSplitMethod_pyStr]
      by_cases ha : s = "artist"
      · subst ha
        simp
      · by_cases hb : s = "label"
        · subst hb
          simp
        · simp [ha, hb]
  · intro s ha hb
    rw [dispatchSplitMethod_pyStr]
    simp [ha, hb]
  · intro e pages album supply
    rfl

/-- Witness for C10: an arbitrary other string fails the attribute
lookup. -/
theorem dispatch_requires_mode_string_witness :
    dispatchSplitMethod (.pyStr "genre") = .error .attributeError :=
  dispatch_requires_mode_string.2.1 "genre" (by decide) (by decide)

end PlaylistSplitter

namespace PlaylistSplitter

/-- **C5 (amended).** Validation in `split`: if any of origin, mode or
pools is `None` after merging the keyword arguments, `split` raises the
configuration `ValueError` before any remote call; if targets are
supplied with a length that is neither `len(pools)` nor `len(pools)+1`,
it raises the target-count `ValueError` before any remote call.  (Being
set but empty does not trigger the configuration check — see the
counterexample theorem.) -/
theorem split_validation_spec (st : SplitterState) (pages : List Page)
    (album : String → String) (supply : Nat → String) :
    ((st.originPlaylist = none ∨ st.splitType = none ∨ st.splitPools = none) →
      split st none none none pages album supply = ([], some .configError)) ∧
    (∀ ts ps, st.targetPlaylists = some ts → st.splitPools = some ps →
      st.originPlaylist.isSome = true → st.splitType.isSome = true →
      ts.length ≠ ps.length → ts.length ≠ ps.length + 1 →
      split st none none none pages album supply =
        ([], some .bucketCountError)) := by
  constructor
  · intro h
    have hval : splitValidationError st = some .configError := by
      unfold splitValidationError
      have hcond : (st.originPlaylist.isNone ∨ st.splitType.isNone ∨
          st.splitPools.isNone) := by
        rcases h with h | h | h <;> simp [h]
      rw [if_pos hcond]
    unfold split
    rw [mergeParams_none]
    dsimp only
    rw [hval]
  · intro ts ps hts hps ho hm hne1 hne2
    have hval : splitValidationError st = some .bucketCountError := by
      unfold splitValidationError
      have hcond : ¬ (st.originPlaylist.isNone ∨ st.splitType.isNone ∨
          st.splitPools.isNone) := by
        rw [Option.isSome_iff_ne_none] at ho hm
        push_neg
        refine ⟨?_, ?_, ?_⟩
        · simpa [Option.isNone_iff_eq_none] using ho
        · simpa [Option.isNone_iff_eq_none] using hm
        · simp [Option.isNone_iff_eq_none, hps]
      rw [if_neg hcond, hts, hps]
      dsimp only
      have : ps.length ≠ ts.length ∧ ps.length + 1 ≠ ts.length :=
        ⟨fun h => hne1 h.symm, fun h => hne2 h.symm⟩
      rw [if_pos this]
    unfold split
    rw [mergeParams_none]
    dsimp only
    rw [hval]

/-- Witness for C5: a fully unset configuration raises the configuration
error with zero catalog calls; a 3-target, 1-pool configuration raises
the target-count error with zero catalog calls. -/
theorem split_validation_spec_witness :
    split ⟨none, none, none, none⟩ none none none [] (fun _ => "")
        (fun _ => "") = ([], some .configError) ∧
    split ⟨some "p", some ["t1", "t2", "t3"], some (.pyStr "artist"),
        some [["A"]]⟩ none none none [] (fun _ => "") (fun _ => "") =
      ([], some .bucketCountError) :=
  ⟨(split_validation_spec ⟨none, none, none, none⟩ [] (fun _ => "")
      (fun _ => "")).1 (Or.inl rfl),
   (split_validation_spec ⟨some "p", some ["t1", "t2", "t3"],
        some (.pyStr "artist"), some [["A"]]⟩ [] (fun _ => "")
      (fun _ => "")).2 ["t1", "t2", "t3"] [["A"]] rfl rfl rfl rfl
      (by decide) (by decide)⟩

/-- **C5 (counterexample).** The claim says an *empty* pools value also
raises `ConfigurationError`; it does not: validation checks `is None`
only, so `pools = []` passes, the origin playlist is fetched remotely,
and the run dies later in the strict zip — no configuration error, and a
remote catalog operation was performed. -/
theorem split_empty_pools_passes_validation :
    splitValidationError
        ⟨some "origin", none, some (.pyStr "artist"), some []⟩ = none ∧
    split ⟨some "origin", none, some (.pyStr "artist"), some []⟩
        none none none [⟨[], false⟩] (fun _ => "") (fun _ => "") =
      ([CatalogOp.fetchPlaylist "origin"], some .strictZipError) := by
  constructor
  · rfl
  · rfl

end PlaylistSplitter

namespace PlaylistSplitter

/-- **C3 (failing evaluation).** With one pool and exactly `len(pools)`
target playlists — a length the validation explicitly accepts — the
classifier still produces `len(pools)+1` buckets, so the
`zip(..., strict=True)` loop raises `ValueError` after processing the
first pair: the run resets and writes the lone target (empty bucket) and
then dies, never completing. -/
theorem split_equal_target_count_raises :
    splitValidationError
        ⟨some "origin", some ["t1"], some (.pyStr "artist"), some [["A"]]⟩ =
      none ∧
    split ⟨some "origin", some ["t1"], some (.pyStr "artist"), some [["A"]]⟩
        none none none [⟨[], false⟩] (fun _ => "") (fun _ => "") =
      ([CatalogOp.fetchPlaylist "origin",
        CatalogOp.replaceItems "t1" [placeholderTrack],
        CatalogOp.removeAllOccurrences "t1" [placeholderTrack],
        CatalogOp.replaceItems "t1" [placeholderTrack],
        CatalogOp.removeAllOccurrences "t1" [placeholderTrack]],
       some .strictZipError) := by
  constructor
  · rfl
  · rfl

/-- **C4 (failing evaluation).** The spec's end-to-end example: 3 tracks
with artist sets `{A,B}`, `{C}`, `{D}`, pools `[{A},{C}]`, targets
unset.  The lazy generator of line 118 creates only `len(pools) = 2`
playlists, the first two buckets are written to them, and the strict zip
then raises `ValueError` with the overflow bucket (`track3`) never
written — instead of the 3 auto-created destinations the spec
describes. -/
theorem split_autocreate_offbyone :
    split ⟨some "origin", none, some (.pyStr "artist"), some [["A"], ["C"]]⟩
        none none none
        [⟨[⟨"t1", ["A", "B"], "al1"⟩, ⟨"t2", ["C"], "al2"⟩,
           ⟨"t3", ["D"], "al3"⟩], false⟩]
        (fun _ => "") (fun i => ["p0", "p1", "p2"].getD i "") =
      ([CatalogOp.fetchPlaylist "origin",
        CatalogOp.createPlaylist,
        CatalogOp.replaceItems "p0" [placeholderTrack],
        CatalogOp.removeAllOccurrences "p0" [placeholderTrack],
        CatalogOp.replaceItems "p0" [placeholderTrack],
        CatalogOp.removeAllOccurrences "p0" [placeholderTrack],
        CatalogOp.addItems "p0" ["t1"],
        CatalogOp.createPlaylist,
        CatalogOp.replaceItems "p1" [placeholderTrack],
        CatalogOp.removeAllOccurrences "p1" [placeholderTrack],
        CatalogOp.replaceItems "p1" [placeholderTrack],
        CatalogOp.removeAllOccurrences "p1" [placeholderTrack],
        CatalogOp.addItems "p1" ["t2"]],
       some .strictZipError) ∧
    ((split ⟨some "origin", none, some (.pyStr "artist"), some [["A"], ["C"]]⟩
        none none none
        [⟨[⟨"t1", ["A", "B"], "al1"⟩, ⟨"t2", ["C"], "al2"⟩,
           ⟨"t3", ["D"], "al3"⟩], false⟩]
        (fun _ => "") (fun i => ["p0", "p1", "p2"].getD i "")).1.countP
      (fun op => op == CatalogOp.createPlaylist)) = 2 := by
  constructor
  · rfl
  · rfl

end PlaylistSplitter
